import Mathlib

/-!
Verification of the telemarketing dashboard's filter-and-aggregate pipeline
(`src/app_7.py`).

The dataframe operations used by the script are embedded shallowly:

* a `DataFrame` is a column-name list together with a list of
  (index label, row) pairs, mirroring a pandas frame with its integer index;
* `multiselect_filter` embeds the script's function of the same name
  (`if 'all' in selected: return df` / `df[df[col].isin(selected)].reset_index(drop=True)`);
* `queryAge` embeds the `bank.query("age >= @a and age <= @b")` step;
* `applyFilters` embeds the `.pipe(multiselect_filter, col, sel)` chain,
  generalised to an arbitrary ordered list of (column, selection) pairs, and
  `bank_filter_chain` is the literal eight-column chain of `main`;
* `load_data` embeds the try/except CSV-then-Excel loader;
* `value_counts_norm_pct` / `summarize_y` embed
  `bank.y.value_counts(normalize=True).mul(100).to_frame("y").sort_index()`.

Fallible pandas operations (missing column, ill-typed comparison) return
`Except PdError`; values are exact (`Int`, `Rat`), so the percentage
arithmetic is exact rational arithmetic.
-/

/-- A scalar cell value of the dataset: a string or an integer. -/
inductive Value where
  | str : String → Value
  | int : Int → Value
deriving DecidableEq, Repr

/-- A pandas-style dataframe: a fixed column schema and a list of rows, each
row carrying its index label (pandas keeps labels across filtering unless
`reset_index` is called). A row is the list of its cell values, positionally
aligned with `cols`. -/
structure DataFrame where
  cols : List String
  pairs : List (Nat × List Value)
deriving DecidableEq, Repr

/-- The rows of a dataframe, without their index labels. -/
def DataFrame.rowsList (df : DataFrame) : List (List Value) :=
  df.pairs.map Prod.snd

/-- The index labels of a dataframe. -/
def DataFrame.indexList (df : DataFrame) : List Nat :=
  df.pairs.map Prod.fst

/-- Well-formedness: every row has exactly one cell per column. -/
def DataFrame.WF (df : DataFrame) : Prop :=
  ∀ p ∈ df.pairs, p.2.length = df.cols.length

instance (df : DataFrame) : Decidable df.WF := by
  unfold DataFrame.WF; infer_instance

/-- Errors raised by the embedded pandas operations. -/
inductive PdError where
  | keyError : String → PdError
  | typeError : PdError
  | parseError : String → PdError
deriving DecidableEq, Repr

/-- Column access within one row: the cell at the position of the first
occurrence of `c` in `cols` (pandas `df[c]`, per row). `none` when the column
is absent or the row is too short. -/
def rowVal (cols : List String) (c : String) (r : List Value) : Option Value :=
  match cols, r with
  | [], _ => none
  | _ :: _, [] => none
  | c0 :: cs, v :: vs => if c0 = c then some v else rowVal cs c vs

/-- Row-level embedding of `df[col].isin(selected)`: does the row's cell in
column `col` belong to `selected`? -/
def isinRow (cols : List String) (col : String) (selected : List Value) (r : List Value) : Bool :=
  match rowVal cols col r with
  | some v => decide (v ∈ selected)
  | none => false

/-- Embedding of the script's `multiselect_filter(df, col, selected)`:

    if 'all' in selected:
        return df
    return df[df[col].isin(selected)].reset_index(drop=True)

The sentinel check comes first, so an absent column is only an error when the
sentinel is missing; `reset_index(drop=True)` renumbers the surviving rows
from zero, which `List.enum` produces. -/
def multiselect_filter (df : DataFrame) (col : String) (selected : List Value) :
    Except PdError DataFrame :=
  if Value.str "all" ∈ selected then
    .ok df
  else if col ∈ df.cols then
    .ok ⟨df.cols, ((df.pairs.filter fun p => isinRow df.cols col selected p.2).map Prod.snd).enum⟩
  else
    .error (.keyError col)

/-- The row's `age` cell, provided it is an integer. -/
def getAge (cols : List String) (r : List Value) : Option Int :=
  match rowVal cols "age" r with
  | some (Value.int a) => some a
  | _ => none

/-- Row-level predicate of `query("age >= @lo and age <= @hi")`. -/
def ageOK (cols : List String) (lo hi : Int) (r : List Value) : Bool :=
  match getAge cols r with
  | some a => decide (lo ≤ a ∧ a ≤ hi)
  | none => false

/-- Embedding of `bank.query("age >= @age_range[0] and age <= @age_range[1]")`:
keeps exactly the rows whose integer `age` lies in the closed interval,
retaining their original index labels. Errors when the `age` column is absent
or some `age` cell is not an integer (pandas raises on an ill-typed
comparison). -/
def queryAge (df : DataFrame) (lo hi : Int) : Except PdError DataFrame :=
  if "age" ∈ df.cols then
    if df.pairs.all (fun p => (getAge df.cols p.2).isSome) then
      .ok ⟨df.cols, df.pairs.filter fun p => ageOK df.cols lo hi p.2⟩
    else
      .error .typeError
  else
    .error (.keyError "age")

/-- Sequential application of `multiselect_filter` for each (column,
selection) pair in list order — the `.pipe` chain of `main`, generalised to
any ordered selection list. -/
def applyFilters (df : DataFrame) (sels : List (String × List Value)) :
    Except PdError DataFrame :=
  match sels with
  | [] => .ok df
  | (c, s) :: rest => (multiselect_filter df c s).bind fun d => applyFilters d rest

/-- The full filter pipeline of `main`: the age-range query followed by the
categorical filters. -/
def pipeline (df : DataFrame) (lo hi : Int) (sels : List (String × List Value)) :
    Except PdError DataFrame :=
  (queryAge df lo hi).bind fun d => applyFilters d sels

/-- The selection list of `main`'s literal chain, in source order. -/
def bankSels (jobs marital default_sel housing loan contact month day : List Value) :
    List (String × List Value) :=
  [("job", jobs), ("marital", marital), ("default", default_sel), ("housing", housing),
   ("loan", loan), ("contact", contact), ("month", month), ("day_of_week", day)]

/-- The literal filter chain of `main` over the eight configured columns:

    bank.query("age >= @age_range[0] and age <= @age_range[1]")
        .pipe(multiselect_filter, "job", jobs)
        ... .pipe(multiselect_filter, "day_of_week", day)
-/
def bank_filter_chain (bank : DataFrame) (age_range : Int × Int)
    (jobs marital default_sel housing loan contact month day : List Value) :
    Except PdError DataFrame :=
  (queryAge bank age_range.1 age_range.2).bind fun b0 =>
  (multiselect_filter b0 "job" jobs).bind fun b1 =>
  (multiselect_filter b1 "marital" marital).bind fun b2 =>
  (multiselect_filter b2 "default" default_sel).bind fun b3 =>
  (multiselect_filter b3 "housing" housing).bind fun b4 =>
  (multiselect_filter b4 "loan" loan).bind fun b5 =>
  (multiselect_filter b5 "contact" contact).bind fun b6 =>
  (multiselect_filter b6 "month" month).bind fun b7 =>
  multiselect_filter b7 "day_of_week" day

/-- Embedding of `load_data(file_data)`:

    try:
        return pd.read_csv(file_data, sep=';')
    except Exception:
        return pd.read_excel(file_data)

parametrised over the two parsers and the uploaded byte stream. -/
def load_data {β : Type} (read_csv read_excel : β → Except PdError DataFrame)
    (file_data : β) : Except PdError DataFrame :=
  match read_csv file_data with
  | .ok d => .ok d
  | .error _ => read_excel file_data

/-- Lexicographic order on character lists by code point. -/
def charListLe : List Char → List Char → Bool
  | [], _ => true
  | _ :: _, [] => false
  | c :: cs, d :: ds =>
    if c.toNat < d.toNat then true
    else if d.toNat < c.toNat then false
    else charListLe cs ds

/-- Lexicographic string order by code point (Python string comparison). -/
def strLe (a b : String) : Bool := charListLe a.data b.data

/-- Display order used by `.sort_index()`: integers before strings, each kind
in its natural order. -/
def Value.le : Value → Value → Bool
  | .int a, .int b => a ≤ b
  | .str a, .str b => strLe a b
  | .int _, .str _ => true
  | .str _, .int _ => false

/-- Embedding of `series.value_counts(normalize=True).mul(100) ... .sort_index()`:
for each distinct value of the series, its percentage share of the total, keys
sorted for display. Exact rational arithmetic. -/
def value_counts_norm_pct (vs : List Value) : List (Value × ℚ) :=
  (List.insertionSort (fun a b => Value.le a b = true) vs.dedup).map
    fun v => (v, ((vs.count v : ℚ) / (vs.length : ℚ)) * 100)

/-- The cell values of one column, top to bottom. -/
def colValues (df : DataFrame) (c : String) : List Value :=
  df.pairs.filterMap fun p => rowVal df.cols c p.2

/-- Embedding of the summariser applied to the outcome column:
`bank.y.value_counts(normalize=True).mul(100).to_frame("y").sort_index()`. -/
def summarize_y (df : DataFrame) : List (Value × ℚ) :=
  value_counts_norm_pct (colValues df "y")

/-- Does a row survive every filter of `sels` (sentinel selections keep
everything)? -/
def survives (cols : List String) (sels : List (String × List Value)) (r : List Value) : Bool :=
  sels.all fun cs => decide (Value.str "all" ∈ cs.2) || isinRow cols cs.1 cs.2 r

/-! ### Basic lemmas about the embedded operations -/

lemma map_snd_filter (l : List (Nat × List Value)) (g : List Value → Bool) :
    (l.filter fun p => g p.2).map Prod.snd = (l.map Prod.snd).filter g := by
  induction l with
  | nil => rfl
  | cons a t ih => by_cases h : g a.2 <;> simp [List.filter_cons, h, ih]

lemma ageOK_eq_true_iff (cols : List String) (lo hi : Int) (r : List Value) :
    ageOK cols lo hi r = true ↔ ∃ a, getAge cols r = some a ∧ lo ≤ a ∧ a ≤ hi := by
  unfold ageOK
  cases h : getAge cols r <;> simp

lemma isSome_of_ageOK (cols : List String) (lo hi : Int) (r : List Value)
    (h : ageOK cols lo hi r = true) : (getAge cols r).isSome = true := by
  rcases (ageOK_eq_true_iff cols lo hi r).mp h with ⟨a, ha, -⟩
  simp [ha]

lemma rowVal_isSome_of_mem (cols : List String) (c : String) (r : List Value)
    (hc : c ∈ cols) (hlen : r.length = cols.length) : (rowVal cols c r).isSome = true := by
  induction cols generalizing r with
  | nil => cases hc
  | cons c0 cs ih =>
    cases r with
    | nil => simp at hlen
    | cons v vs =>
      unfold rowVal
      by_cases h0 : c0 = c
      · simp [h0]
      · have hc2 : c ∈ cs := by
          rcases List.mem_cons.mp hc with h | h
          · exact absurd h.symm h0
          · exact h
        rw [if_neg h0]
        exact ih vs hc2 (by simpa using hlen)

lemma multiselect_filter_ok_cases (df : DataFrame) (col : String) (selected : List Value)
    (d : DataFrame) (h : multiselect_filter df col selected = .ok d) :
    (Value.str "all" ∈ selected ∧ d = df) ∨
    (Value.str "all" ∉ selected ∧ col ∈ df.cols ∧
      d = ⟨df.cols, (df.rowsList.filter (isinRow df.cols col selected)).enum⟩) := by
  by_cases hs : Value.str "all" ∈ selected
  · left
    refine ⟨hs, ?_⟩
    simp only [multiselect_filter, if_pos hs, Except.ok.injEq] at h
    exact h.symm
  · right
    by_cases hc : col ∈ df.cols
    · simp only [multiselect_filter, if_neg hs, if_pos hc, Except.ok.injEq] at h
      refine ⟨hs, hc, ?_⟩
      rw [← h, DataFrame.rowsList, ← map_snd_filter]
    · simp [multiselect_filter, if_neg hs, if_neg hc] at h

lemma survives_cons (cols : List String) (c : String) (s : List Value)
    (rest : List (String × List Value)) (r : List Value) :
    survives cols ((c, s) :: rest) r =
      ((decide (Value.str "all" ∈ s) || isinRow cols c s r) && survives cols rest r) := rfl

lemma survives_of_all_sentinel (cols : List String) (sels : List (String × List Value))
    (r : List Value) (h : ∀ cs ∈ sels, Value.str "all" ∈ cs.2) :
    survives cols sels r = true := by
  unfold survives
  rw [List.all_eq_true]
  intro cs hcs
  simp [h cs hcs]

lemma queryAge_ok_iff (df : DataFrame) (lo hi : Int) (d : DataFrame) :
    queryAge df lo hi = .ok d ↔
      "age" ∈ df.cols ∧ (∀ p ∈ df.pairs, (getAge df.cols p.2).isSome = true) ∧
        d = ⟨df.cols, df.pairs.filter fun p => ageOK df.cols lo hi p.2⟩ := by
  unfold queryAge
  by_cases h1 : "age" ∈ df.cols
  · by_cases h2 : df.pairs.all (fun p => (getAge df.cols p.2).isSome) = true
    · rw [if_pos h1, if_pos h2]
      rw [List.all_eq_true] at h2
      constructor
      · intro h
        refine ⟨h1, h2, ?_⟩
        cases h
        rfl
      · rintro ⟨-, -, rfl⟩
        rfl
    · rw [if_pos h1, if_neg h2]
      rw [List.all_eq_true] at h2
      constructor
      · intro h
        cases h
      · rintro ⟨-, hall, -⟩
        exact absurd hall h2
  · rw [if_neg h1]
    constructor
    · intro h
      cases h
    · rintro ⟨hall, -, -⟩
      exact absurd hall h1

/-! ### Normal form of a chain of categorical filters -/

lemma applyFilters_nf (sels : List (String × List Value)) :
    ∀ (df d : DataFrame), applyFilters df sels = .ok d →
      ((∀ cs ∈ sels, Value.str "all" ∈ cs.2) ∧ d = df) ∨
      ((∃ cs ∈ sels, Value.str "all" ∉ cs.2) ∧
        d = ⟨df.cols, (df.rowsList.filter (survives df.cols sels)).enum⟩) := by
  induction sels with
  | nil =>
    intro df d h
    left
    refine ⟨by simp, ?_⟩
    unfold applyFilters at h
    cases h
    rfl
  | cons cs0 rest ih =>
    intro df d h
    obtain ⟨c, s⟩ := cs0
    unfold applyFilters at h
    cases hm : multiselect_filter df c s with
    | error e => rw [hm] at h; cases h
    | ok m =>
      rw [hm] at h
      simp only [Except.bind] at h
      rcases multiselect_filter_ok_cases df c s m hm with ⟨hs, rfl⟩ | ⟨hs, hc, hmk⟩
      · -- sentinel present: this step is the identity
        rcases ih _ d h with ⟨hall, rfl⟩ | ⟨⟨cs1, hcs1, hnon⟩, hd⟩
        · left
          refine ⟨?_, rfl⟩
          intro cs hcs
          rcases List.mem_cons.mp hcs with rfl | hcs
          · exact hs
          · exact hall cs hcs
        · right
          refine ⟨⟨cs1, List.mem_cons_of_mem _ hcs1, hnon⟩, ?_⟩
          rw [hd]
          congr 2
          apply List.filter_congr
          intro r hr
          rw [survives_cons]
          simp [hs]
      · -- sentinel absent: this step filters and reindexes
        subst hmk
        rcases ih _ d h with ⟨hall, rfl⟩ | ⟨⟨cs1, hcs1, hnon⟩, hd⟩
        · right
          refine ⟨⟨(c, s), List.mem_cons_self _ _, hs⟩, ?_⟩
          congr 1
          have hfe :
              df.rowsList.filter (survives df.cols ((c, s) :: rest)) =
                df.rowsList.filter (isinRow df.cols c s) := by
            apply List.filter_congr
            intro r hr
            rw [survives_cons, survives_of_all_sentinel _ _ _ hall]
            simp [hs]
          rw [hfe]
        · right
          refine ⟨⟨(c, s), List.mem_cons_self _ _, hs⟩, ?_⟩
          rw [hd]
          have hrows :
              (DataFrame.rowsList ⟨df.cols,
                  (df.rowsList.filter (isinRow df.cols c s)).enum⟩) =
                df.rowsList.filter (isinRow df.cols c s) := by
            unfold DataFrame.rowsList
            exact List.enum_map_snd _
          congr 1
          rw [hrows, List.filter_filter]
          congr 1
          apply List.filter_congr
          intro r hr
          rw [survives_cons]
          simp [hs, Bool.and_comm]

lemma applyFilters_cols (sels : List (String × List Value)) (df d : DataFrame)
    (h : applyFilters df sels = .ok d) : d.cols = df.cols := by
  rcases applyFilters_nf sels df d h with ⟨-, rfl⟩ | ⟨-, rfl⟩ <;> rfl

lemma applyFilters_rows (sels : List (String × List Value)) (df d : DataFrame)
    (h : applyFilters df sels = .ok d) :
    d.rowsList = df.rowsList.filter (survives df.cols sels) := by
  rcases applyFilters_nf sels df d h with ⟨hall, rfl⟩ | ⟨-, rfl⟩
  · rw [List.filter_eq_self.mpr]
    intro r hr
    exact survives_of_all_sentinel _ _ _ hall
  · unfold DataFrame.rowsList
    exact List.enum_map_snd _

lemma applyFilters_ok_sels (sels : List (String × List Value)) :
    ∀ (df d : DataFrame), applyFilters df sels = .ok d →
      ∀ cs ∈ sels, Value.str "all" ∈ cs.2 ∨ cs.1 ∈ df.cols := by
  induction sels with
  | nil => intro df d h cs hcs; cases hcs
  | cons cs0 rest ih =>
    intro df d h cs hcs
    obtain ⟨c, s⟩ := cs0
    unfold applyFilters at h
    cases hm : multiselect_filter df c s with
    | error e => rw [hm] at h; cases h
    | ok m =>
      rw [hm] at h
      simp only [Except.bind] at h
      have hcolsm : m.cols = df.cols := by
        rcases multiselect_filter_ok_cases df c s m hm with ⟨-, rfl⟩ | ⟨-, -, rfl⟩ <;> rfl
      rcases List.mem_cons.mp hcs with rfl | hcs2
      · rcases multiselect_filter_ok_cases df c s m hm with ⟨hsent, -⟩ | ⟨-, hc, -⟩
        · exact Or.inl hsent
        · exact Or.inr hc
      · rcases ih m d h cs hcs2 with hsent | hc
        · exact Or.inl hsent
        · exact Or.inr (hcolsm ▸ hc)

lemma applyFilters_isOk (sels : List (String × List Value)) :
    ∀ df : DataFrame, (∀ cs ∈ sels, Value.str "all" ∈ cs.2 ∨ cs.1 ∈ df.cols) →
      ∃ d, applyFilters df sels = .ok d := by
  induction sels with
  | nil => intro df h; exact ⟨df, rfl⟩
  | cons cs0 rest ih =>
    intro df h
    obtain ⟨c, s⟩ := cs0
    by_cases hs : Value.str "all" ∈ s
    · obtain ⟨d, hd⟩ := ih df fun cs hcs => h cs (List.mem_cons_of_mem _ hcs)
      refine ⟨d, ?_⟩
      unfold applyFilters
      rw [show multiselect_filter df c s = .ok df by simp [multiselect_filter, hs]]
      exact hd
    · have hc : c ∈ df.cols :=
        ((h (c, s) (List.mem_cons_self _ _)).resolve_left hs)
      set m : DataFrame :=
        ⟨df.cols, ((df.pairs.filter fun p => isinRow df.cols c s p.2).map Prod.snd).enum⟩ with hm
      obtain ⟨d, hd⟩ := ih m fun cs hcs => by
        rcases h cs (List.mem_cons_of_mem _ hcs) with hsent | hcol
        · exact Or.inl hsent
        · exact Or.inr hcol
      refine ⟨d, ?_⟩
      unfold applyFilters
      rw [show multiselect_filter df c s = .ok m by simp [multiselect_filter, hs, hc, hm]]
      exact hd

/-! ### Concrete example frames used by witnesses -/

/-- A three-row frame with `age` and `job` columns. -/
def dfEx : DataFrame :=
  ⟨["age", "job"],
   [(0, [Value.int 20, Value.str "admin."]), (1, [Value.int 30, Value.str "services"]),
    (2, [Value.int 40, Value.str "admin."])]⟩

/-- The ten-row frame of the spec scenario, ages 20,25,...,65. -/
def df10 : DataFrame :=
  ⟨["age"],
   [(0, [Value.int 20]), (1, [Value.int 25]), (2, [Value.int 30]), (3, [Value.int 35]),
    (4, [Value.int 40]), (5, [Value.int 45]), (6, [Value.int 50]), (7, [Value.int 55]),
    (8, [Value.int 60]), (9, [Value.int 65])]⟩

/-- A one-row frame with a single `age` column. -/
def dfAge1 : DataFrame := ⟨["age"], [(0, [Value.int 40])]⟩

/-! ### Claims about the categorical filter -/

/-- Claim C1: for every dataset, column name, and selection containing the
sentinel string "all" (possibly alongside other entries), `multiselect_filter`
returns the dataset unchanged, original row index intact. -/
theorem multiselect_filter_sentinel_id (df : DataFrame) (col : String)
    (selected : List Value) (h : Value.str "all" ∈ selected) :
    multiselect_filter df col selected = .ok df := by
  simp [multiselect_filter, h]

theorem multiselect_filter_sentinel_id_witness :
    Value.str "all" ∈ [Value.str "admin.", Value.str "all"] ∧
      multiselect_filter dfEx "job" [Value.str "admin.", Value.str "all"] = .ok dfEx :=
  ⟨by decide, multiselect_filter_sentinel_id dfEx "job" _ (by decide)⟩

/-- Claim C2: with the column present and no sentinel in the selection,
`multiselect_filter` returns exactly the rows whose value in the column is a
member of the selection (none dropped, none added), preserving relative order,
with the row index renumbered from zero. -/
theorem multiselect_filter_selects_exactly (df : DataFrame) (col : String)
    (selected : List Value) (hcol : col ∈ df.cols) (hall : Value.str "all" ∉ selected) :
    ∃ d, multiselect_filter df col selected = .ok d ∧
      d.cols = df.cols ∧
      d.rowsList = df.rowsList.filter (isinRow df.cols col selected) ∧
      d.indexList = List.range d.pairs.length ∧
      (∀ r ∈ d.rowsList, isinRow df.cols col selected r = true) ∧
      (∀ r ∈ df.rowsList, isinRow df.cols col selected r = true → r ∈ d.rowsList) := by
  have hok : multiselect_filter df col selected =
      .ok ⟨df.cols,
        ((df.pairs.filter fun p => isinRow df.cols col selected p.2).map Prod.snd).enum⟩ := by
    simp [multiselect_filter, hall, hcol]
  have hrows :
      (DataFrame.rowsList ⟨df.cols,
          ((df.pairs.filter fun p => isinRow df.cols col selected p.2).map Prod.snd).enum⟩) =
        df.rowsList.filter (isinRow df.cols col selected) := by
    unfold DataFrame.rowsList
    rw [List.enum_map_snd, map_snd_filter]
  refine ⟨_, hok, rfl, hrows, ?_, ?_, ?_⟩
  · unfold DataFrame.indexList
    rw [List.enum_map_fst, List.enum_length]
  · intro r hr
    rw [hrows] at hr
    exact (List.mem_filter.mp hr).2
  · intro r hr hmem
    rw [hrows]
    exact List.mem_filter.mpr ⟨hr, hmem⟩

theorem multiselect_filter_selects_exactly_witness :
    ("job" ∈ dfEx.cols ∧ Value.str "all" ∉ [Value.str "admin."]) ∧
    (∃ d, multiselect_filter dfEx "job" [Value.str "admin."] = .ok d ∧
      d.cols = dfEx.cols ∧
      d.rowsList = dfEx.rowsList.filter (isinRow dfEx.cols "job" [Value.str "admin."]) ∧
      d.indexList = List.range d.pairs.length ∧
      (∀ r ∈ d.rowsList, isinRow dfEx.cols "job" [Value.str "admin."] r = true) ∧
      (∀ r ∈ dfEx.rowsList, isinRow dfEx.cols "job" [Value.str "admin."] r = true →
        r ∈ d.rowsList)) ∧
    multiselect_filter dfEx "job" [Value.str "admin."] =
      .ok ⟨["age", "job"],
        [(0, [Value.int 20, Value.str "admin."]), (1, [Value.int 40, Value.str "admin."])]⟩ :=
  ⟨⟨by decide, by decide⟩,
   multiselect_filter_selects_exactly dfEx "job" [Value.str "admin."] (by decide) (by decide),
   by rfl⟩

/-- Claim C9 counterexample: on a frame whose schema is only `job`, filtering
the absent column `marital` with a selection containing the sentinel "all"
does not fail — it returns the frame unchanged, because the sentinel test
precedes the column access. -/
theorem multiselect_filter_sentinel_skips_schema_check :
    multiselect_filter ⟨["job"], [(0, [Value.str "admin."])]⟩ "marital" [Value.str "all"] =
      .ok ⟨["job"], [(0, [Value.str "admin."])]⟩ := by rfl

/-- Claim C9 amended: `multiselect_filter` fails with a key error for the
named column exactly when the column is absent AND the selection does not
contain the sentinel "all"; when the sentinel is present it succeeds
regardless of the schema. -/
theorem multiselect_filter_unknown_column (df : DataFrame) (col : String)
    (selected : List Value) :
    (Value.str "all" ∉ selected → col ∉ df.cols →
      multiselect_filter df col selected = .error (.keyError col)) ∧
    (Value.str "all" ∈ selected → multiselect_filter df col selected = .ok df) := by
  constructor
  · intro h1 h2
    simp [multiselect_filter, h1, h2]
  · intro h1
    simp [multiselect_filter, h1]

theorem multiselect_filter_unknown_column_witness :
    (Value.str "all" ∉ [Value.str "single"] ∧
      "marital" ∉ (⟨["job"], [(0, [Value.str "admin."])]⟩ : DataFrame).cols) ∧
    multiselect_filter ⟨["job"], [(0, [Value.str "admin."])]⟩ "marital" [Value.str "single"] =
      .error (.keyError "marital") :=
  ⟨⟨by decide, by decide⟩,
   (multiselect_filter_unknown_column ⟨["job"], [(0, [Value.str "admin."])]⟩ "marital"
     [Value.str "single"]).1 (by decide) (by decide)⟩

/-! ### Claims about the age-range step -/

/-- Claim C3: for every dataset with an integer `age` column and every range
with `lo ≤ hi`, the age step keeps exactly the rows whose age `a` satisfies
`lo ≤ a ≤ hi`, both endpoints inclusive, in their original order. -/
theorem queryAge_keeps_inclusive_range (df : DataFrame) (lo hi : Int)
    (hage : "age" ∈ df.cols)
    (hint : ∀ p ∈ df.pairs, (getAge df.cols p.2).isSome = true)
    (hle : lo ≤ hi) :
    ∃ d, queryAge df lo hi = .ok d ∧
      List.Sublist d.pairs df.pairs ∧
      (∀ p ∈ d.pairs, ∃ a, getAge df.cols p.2 = some a ∧ lo ≤ a ∧ a ≤ hi) ∧
      (∀ p ∈ df.pairs, ∀ a, getAge df.cols p.2 = some a → lo ≤ a → a ≤ hi → p ∈ d.pairs) := by
  have hok : queryAge df lo hi =
      .ok ⟨df.cols, df.pairs.filter fun p => ageOK df.cols lo hi p.2⟩ :=
    (queryAge_ok_iff df lo hi _).mpr ⟨hage, hint, rfl⟩
  refine ⟨_, hok, List.filter_sublist _, ?_, ?_⟩
  · intro p hp
    exact (ageOK_eq_true_iff _ _ _ _).mp (List.mem_filter.mp hp).2
  · intro p hp a ha hlo hhi
    exact List.mem_filter.mpr ⟨hp, (ageOK_eq_true_iff _ _ _ _).mpr ⟨a, ha, hlo, hhi⟩⟩

theorem queryAge_keeps_inclusive_range_witness :
    ("age" ∈ df10.cols ∧ (∀ p ∈ df10.pairs, (getAge df10.cols p.2).isSome = true) ∧
      (30 : Int) ≤ 50) ∧
    (∃ d, queryAge df10 30 50 = .ok d ∧
      List.Sublist d.pairs df10.pairs ∧
      (∀ p ∈ d.pairs, ∃ a, getAge df10.cols p.2 = some a ∧ 30 ≤ a ∧ a ≤ 50) ∧
      (∀ p ∈ df10.pairs, ∀ a, getAge df10.cols p.2 = some a → 30 ≤ a → a ≤ 50 →
        p ∈ d.pairs)) ∧
    queryAge df10 30 50 =
      .ok ⟨["age"],
        [(2, [Value.int 30]), (3, [Value.int 35]), (4, [Value.int 40]), (5, [Value.int 45]),
         (6, [Value.int 50])]⟩ :=
  ⟨⟨by decide, by decide, by decide⟩,
   queryAge_keeps_inclusive_range df10 30 50 (by decide) (by decide) (by decide),
   by rfl⟩

/-- Helper: applying any chain of categorical filters whose non-sentinel
columns exist in the schema to a frame with no rows yields the same empty
frame. -/
lemma applyFilters_empty_rows (sels : List (String × List Value)) :
    ∀ cols : List String, (∀ cs ∈ sels, Value.str "all" ∈ cs.2 ∨ cs.1 ∈ cols) →
      applyFilters ⟨cols, []⟩ sels = .ok ⟨cols, []⟩ := by
  induction sels with
  | nil => intro cols h; rfl
  | cons cs0 rest ih =>
    intro cols h
    obtain ⟨c, s⟩ := cs0
    unfold applyFilters
    by_cases hs : Value.str "all" ∈ s
    · rw [show multiselect_filter ⟨cols, []⟩ c s = .ok ⟨cols, []⟩ by
        simp [multiselect_filter, hs]]
      exact ih cols fun cs hcs => h cs (List.mem_cons_of_mem _ hcs)
    · have hc : c ∈ cols := (h (c, s) (List.mem_cons_self _ _)).resolve_left hs
      rw [show multiselect_filter ⟨cols, []⟩ c s = .ok ⟨cols, []⟩ by
        simp [multiselect_filter, hs, hc]]
      exact ih cols fun cs hcs => h cs (List.mem_cons_of_mem _ hcs)

/-- Claim C4 counterexample: with minimum 50 exceeding maximum 30, on a
one-row dataset of age 40, the pipeline does not fail with any error — it
returns an (empty) dataset. -/
theorem pipeline_inverted_range_returns_dataset :
    pipeline dfAge1 50 30 [] = .ok ⟨["age"], []⟩ := by rfl

/-- Claim C4 amended: for an inverted range (`hi < lo`) the pipeline does not
fail; since no age can satisfy both bounds, it returns the dataset with the
same schema and zero rows (provided, as everywhere in the pipeline, that the
`age` column exists with integer values and each non-sentinel selection names
an existing column). -/
theorem pipeline_inverted_range_empty (df : DataFrame) (lo hi : Int)
    (sels : List (String × List Value))
    (hage : "age" ∈ df.cols)
    (hint : ∀ p ∈ df.pairs, (getAge df.cols p.2).isSome = true)
    (hgt : hi < lo)
    (hsels : ∀ cs ∈ sels, Value.str "all" ∈ cs.2 ∨ cs.1 ∈ df.cols) :
    pipeline df lo hi sels = .ok ⟨df.cols, []⟩ := by
  have hnil : (df.pairs.filter fun p => ageOK df.cols lo hi p.2) = [] := by
    rw [List.filter_eq_nil_iff]
    intro p hp habs
    rcases (ageOK_eq_true_iff _ _ _ _).mp habs with ⟨a, -, hlo, hhi⟩
    exact absurd (le_trans hlo hhi) (not_le.mpr hgt)
  have hq : queryAge df lo hi = .ok ⟨df.cols, []⟩ := by
    have h0 : queryAge df lo hi =
        .ok ⟨df.cols, df.pairs.filter fun p => ageOK df.cols lo hi p.2⟩ :=
      (queryAge_ok_iff df lo hi _).mpr ⟨hage, hint, rfl⟩
    rw [h0, hnil]
  unfold pipeline
  rw [hq]
  simp only [Except.bind]
  exact applyFilters_empty_rows sels df.cols hsels

theorem pipeline_inverted_range_empty_witness :
    ("age" ∈ dfEx.cols ∧ (∀ p ∈ dfEx.pairs, (getAge dfEx.cols p.2).isSome = true) ∧
      (30 : Int) < 50 ∧
      (∀ cs ∈ [("job", [Value.str "admin."])], Value.str "all" ∈ cs.2 ∨ cs.1 ∈ dfEx.cols)) ∧
    pipeline dfEx 50 30 [("job", [Value.str "admin."])] = .ok ⟨dfEx.cols, []⟩ :=
  ⟨⟨by decide, by decide, by decide, by decide⟩,
   pipeline_inverted_range_empty dfEx 50 30 [("job", [Value.str "admin."])]
     (by decide) (by decide) (by decide) (by decide)⟩

/-! ### Schema preservation, idempotence, and order independence -/

/-- Claim C10: every step of the pipeline preserves the column schema — the
age step, each categorical filter, and the whole pipeline return a frame with
exactly the same columns in the same order; only rows are removed. -/
theorem pipeline_preserves_schema (df : DataFrame) (lo hi : Int) (col : String)
    (selected : List Value) (sels : List (String × List Value)) (d1 d2 d3 : DataFrame) :
    (queryAge df lo hi = .ok d1 → d1.cols = df.cols) ∧
    (multiselect_filter df col selected = .ok d2 → d2.cols = df.cols) ∧
    (pipeline df lo hi sels = .ok d3 → d3.cols = df.cols) := by
  refine ⟨?_, ?_, ?_⟩
  · intro h
    rcases (queryAge_ok_iff df lo hi d1).mp h with ⟨-, -, rfl⟩
    rfl
  · intro h
    rcases multiselect_filter_ok_cases df col selected d2 h with ⟨-, rfl⟩ | ⟨-, -, rfl⟩ <;> rfl
  · intro h
    unfold pipeline at h
    cases hq : queryAge df lo hi with
    | error e => rw [hq] at h; cases h
    | ok q =>
      rw [hq] at h
      simp only [Except.bind] at h
      have h1 : q.cols = df.cols := by
        rcases (queryAge_ok_iff df lo hi q).mp hq with ⟨-, -, rfl⟩
        rfl
      rw [← h1]
      exact applyFilters_cols sels q d3 h

theorem pipeline_preserves_schema_witness :
    (queryAge dfEx 25 45 = .ok ⟨["age", "job"],
        [(1, [Value.int 30, Value.str "services"]), (2, [Value.int 40, Value.str "admin."])]⟩) ∧
    (DataFrame.cols ⟨["age", "job"],
        [(1, [Value.int 30, Value.str "services"]),
         (2, [Value.int 40, Value.str "admin."])]⟩ = dfEx.cols) ∧
    (multiselect_filter dfEx "job" [Value.str "admin."] = .ok ⟨["age", "job"],
        [(0, [Value.int 20, Value.str "admin."]), (1, [Value.int 40, Value.str "admin."])]⟩) ∧
    (DataFrame.cols ⟨["age", "job"],
        [(0, [Value.int 20, Value.str "admin."]),
         (1, [Value.int 40, Value.str "admin."])]⟩ = dfEx.cols) ∧
    (pipeline dfEx 25 45 [("job", [Value.str "admin."])] = .ok ⟨["age", "job"],
        [(0, [Value.int 40, Value.str "admin."])]⟩) ∧
    (DataFrame.cols ⟨["age", "job"],
        [(0, [Value.int 40, Value.str "admin."])]⟩ = dfEx.cols) :=
  ⟨by rfl,
   (pipeline_preserves_schema dfEx 25 45 "job" [Value.str "admin."]
     [("job", [Value.str "admin."])]
     ⟨["age", "job"], [(1, [Value.int 30, Value.str "services"]),
       (2, [Value.int 40, Value.str "admin."])]⟩
     ⟨["age", "job"], [(0, [Value.int 20, Value.str "admin."]),
       (1, [Value.int 40, Value.str "admin."])]⟩
     ⟨["age", "job"], [(0, [Value.int 40, Value.str "admin."])]⟩).1 (by rfl),
   by rfl,
   (pipeline_preserves_schema dfEx 25 45 "job" [Value.str "admin."]
     [("job", [Value.str "admin."])]
     ⟨["age", "job"], [(1, [Value.int 30, Value.str "services"]),
       (2, [Value.int 40, Value.str "admin."])]⟩
     ⟨["age", "job"], [(0, [Value.int 20, Value.str "admin."]),
       (1, [Value.int 40, Value.str "admin."])]⟩
     ⟨["age", "job"], [(0, [Value.int 40, Value.str "admin."])]⟩).2.1 (by rfl),
   by rfl,
   (pipeline_preserves_schema dfEx 25 45 "job" [Value.str "admin."]
     [("job", [Value.str "admin."])]
     ⟨["age", "job"], [(1, [Value.int 30, Value.str "services"]),
       (2, [Value.int 40, Value.str "admin."])]⟩
     ⟨["age", "job"], [(0, [Value.int 20, Value.str "admin."]),
       (1, [Value.int 40, Value.str "admin."])]⟩
     ⟨["age", "job"], [(0, [Value.int 40, Value.str "admin."])]⟩).2.2 (by rfl)⟩

/-- Claim C7: the full pipeline is idempotent — reapplying it with the same
range and selections to its own successful output returns that output
unchanged. -/
theorem pipeline_idempotent (df : DataFrame) (lo hi : Int)
    (sels : List (String × List Value)) (d : DataFrame)
    (h : pipeline df lo hi sels = .ok d) :
    pipeline d lo hi sels = .ok d := by
  unfold pipeline at h ⊢
  cases hq : queryAge df lo hi with
  | error e => rw [hq] at h; cases h
  | ok q =>
    rw [hq] at h
    simp only [Except.bind] at h
    obtain ⟨hage, hint, hqe⟩ := (queryAge_ok_iff df lo hi q).mp hq
    have hqcols : q.cols = df.cols := by rw [hqe]
    have hqage : ∀ r ∈ q.rowsList, ageOK df.cols lo hi r = true := by
      intro r hr
      rw [hqe] at hr
      unfold DataFrame.rowsList at hr
      rcases List.mem_map.mp hr with ⟨p, hp, rfl⟩
      exact (List.mem_filter.mp hp).2
    have hdcols : d.cols = q.cols := applyFilters_cols sels q d h
    have hdrows : d.rowsList = q.rowsList.filter (survives q.cols sels) :=
      applyFilters_rows sels q d h
    have hdage : ∀ r ∈ d.rowsList, ageOK df.cols lo hi r = true := by
      intro r hr
      rw [hdrows] at hr
      exact hqage r (List.mem_filter.mp hr).1
    have hq2 : queryAge d lo hi = .ok d := by
      rw [queryAge_ok_iff]
      refine ⟨by rw [hdcols, hqcols]; exact hage, ?_, ?_⟩
      · intro p hp
        have hrmem : p.2 ∈ d.rowsList := List.mem_map_of_mem Prod.snd hp
        rw [hdcols, hqcols]
        exact isSome_of_ageOK _ _ _ _ (hdage p.2 hrmem)
      · have hfil : (d.pairs.filter fun p => ageOK d.cols lo hi p.2) = d.pairs := by
          rw [List.filter_eq_self]
          intro p hp
          have hrmem : p.2 ∈ d.rowsList := List.mem_map_of_mem Prod.snd hp
          rw [hdcols, hqcols]
          exact hdage p.2 hrmem
        rw [hfil]
    have hselsok : ∀ cs ∈ sels, Value.str "all" ∈ cs.2 ∨ cs.1 ∈ d.cols := by
      intro cs hcs
      rcases applyFilters_ok_sels sels q d h cs hcs with hsent | hc
      · exact Or.inl hsent
      · exact Or.inr (by rw [hdcols]; exact hc)
    obtain ⟨d2, hd2⟩ := applyFilters_isOk sels d hselsok
    have hd2d : d2 = d := by
      rcases applyFilters_nf sels d d2 hd2 with ⟨-, rfl⟩ | ⟨hex2, hd2e⟩
      · rfl
      · rcases applyFilters_nf sels q d h with ⟨hall1, rfl⟩ | ⟨-, hd1e⟩
        · exfalso
          rcases hex2 with ⟨cs, hcs, hnon⟩
          exact hnon (hall1 cs hcs)
        · have hfl : d.rowsList.filter (survives d.cols sels) = d.rowsList := by
            rw [List.filter_eq_self]
            intro r hr
            rw [hdcols]
            rw [hdrows] at hr
            exact (List.mem_filter.mp hr).2
          have hrow_enum : DataFrame.rowsList ⟨q.cols,
              (q.rowsList.filter (survives q.cols sels)).enum⟩ =
              q.rowsList.filter (survives q.cols sels) := by
            unfold DataFrame.rowsList
            exact List.enum_map_snd _
          rw [hd2e, hfl, hd1e, hrow_enum]
    rw [hq2]
    simp only [Except.bind]
    rw [hd2, hd2d]

theorem pipeline_idempotent_witness :
    pipeline dfEx 25 45 [("job", [Value.str "admin."])] =
      .ok ⟨["age", "job"], [(0, [Value.int 40, Value.str "admin."])]⟩ ∧
    pipeline ⟨["age", "job"], [(0, [Value.int 40, Value.str "admin."])]⟩ 25 45
      [("job", [Value.str "admin."])] =
      .ok ⟨["age", "job"], [(0, [Value.int 40, Value.str "admin."])]⟩ :=
  ⟨by rfl, pipeline_idempotent dfEx 25 45 [("job", [Value.str "admin."])] _ (by rfl)⟩

/-- `List.all` is invariant under permutation of the list. -/
lemma all_eq_of_perm {α : Type} (f : α → Bool) {l1 l2 : List α} (h : List.Perm l1 l2) :
    l1.all f = l2.all f := by
  have hb : ∀ (a b : Bool), (a = true ↔ b = true) → a = b := by decide
  apply hb
  rw [List.all_eq_true, List.all_eq_true]
  constructor
  · intro ha a hma
    exact ha a (h.mem_iff.mpr hma)
  · intro ha a hma
    exact ha a (h.mem_iff.mp hma)

/-- Claim C8: applying the same collection of categorical filters in two
different orders produces the same final dataset whenever both runs succeed. -/
theorem applyFilters_order_invariant (df : DataFrame)
    (sels1 sels2 : List (String × List Value)) (d1 d2 : DataFrame)
    (hperm : List.Perm sels1 sels2)
    (h1 : applyFilters df sels1 = .ok d1) (h2 : applyFilters df sels2 = .ok d2) :
    d1 = d2 := by
  rcases applyFilters_nf sels1 df d1 h1 with ⟨hall1, he1⟩ | ⟨hex1, hd1⟩ <;>
    rcases applyFilters_nf sels2 df d2 h2 with ⟨hall2, he2⟩ | ⟨hex2, hd2⟩
  · rw [he1, he2]
  · exfalso
    rcases hex2 with ⟨cs, hcs, hnon⟩
    exact hnon (hall1 cs (hperm.mem_iff.mpr hcs))
  · exfalso
    rcases hex1 with ⟨cs, hcs, hnon⟩
    exact hnon (hall2 cs (hperm.mem_iff.mp hcs))
  · rw [hd1, hd2]
    congr 2
    apply List.filter_congr
    intro r hr
    unfold survives
    exact all_eq_of_perm _ hperm

theorem applyFilters_order_invariant_witness :
    List.Perm [("job", [Value.str "admin."]), ("marital", [Value.str "all"])]
      [("marital", [Value.str "all"]), ("job", [Value.str "admin."])] ∧
    applyFilters dfEx [("job", [Value.str "admin."]), ("marital", [Value.str "all"])] =
      .ok ⟨["age", "job"],
        [(0, [Value.int 20, Value.str "admin."]), (1, [Value.int 40, Value.str "admin."])]⟩ ∧
    applyFilters dfEx [("marital", [Value.str "all"]), ("job", [Value.str "admin."])] =
      .ok ⟨["age", "job"],
        [(0, [Value.int 20, Value.str "admin."]), (1, [Value.int 40, Value.str "admin."])]⟩ ∧
    (⟨["age", "job"],
        [(0, [Value.int 20, Value.str "admin."]),
         (1, [Value.int 40, Value.str "admin."])]⟩ : DataFrame) =
      ⟨["age", "job"],
        [(0, [Value.int 20, Value.str "admin."]), (1, [Value.int 40, Value.str "admin."])]⟩ :=
  ⟨by decide, by rfl, by rfl,
   applyFilters_order_invariant dfEx
     [("job", [Value.str "admin."]), ("marital", [Value.str "all"])]
     [("marital", [Value.str "all"]), ("job", [Value.str "admin."])] _ _
     (by decide) (by rfl) (by rfl)⟩

/-! ### Loader fallback policy -/

/-- Claim C5: the loader first attempts the semicolon CSV parse and returns
its result on success; on any CSV-parse error it attempts the spreadsheet
parse and returns that result; when both fail, the second (spreadsheet)
failure is the one propagated. -/
theorem load_data_csv_then_excel {β : Type}
    (read_csv read_excel : β → Except PdError DataFrame) (file_data : β) :
    (∀ d, read_csv file_data = .ok d →
      load_data read_csv read_excel file_data = .ok d) ∧
    (∀ e, read_csv file_data = .error e →
      load_data read_csv read_excel file_data = read_excel file_data) ∧
    (∀ e1 e2, read_csv file_data = .error e1 → read_excel file_data = .error e2 →
      load_data read_csv read_excel file_data = .error e2) := by
  refine ⟨?_, ?_, ?_⟩
  · intro d hd
    unfold load_data
    rw [hd]
  · intro e he
    unfold load_data
    rw [he]
  · intro e1 e2 h1 h2
    unfold load_data
    rw [h1]
    exact h2

theorem load_data_csv_then_excel_witness :
    ((fun _ : Unit => (Except.error (PdError.parseError "bad csv") :
        Except PdError DataFrame)) () = .error (.parseError "bad csv")) ∧
    ((fun _ : Unit => (Except.error (PdError.parseError "bad xlsx") :
        Except PdError DataFrame)) () = .error (.parseError "bad xlsx")) ∧
    load_data (fun _ : Unit => .error (.parseError "bad csv"))
      (fun _ => .error (.parseError "bad xlsx")) () = .error (.parseError "bad xlsx") :=
  ⟨rfl, rfl,
   (load_data_csv_then_excel (fun _ : Unit => .error (.parseError "bad csv"))
     (fun _ => .error (.parseError "bad xlsx")) ()).2.2 _ _ rfl rfl⟩

/-! ### Distribution summariser -/

lemma colValues_ne_nil (df : DataFrame) (hWF : df.WF) (hy : "y" ∈ df.cols)
    (hne : df.pairs ≠ []) : colValues df "y" ≠ [] := by
  obtain ⟨p, hp⟩ := List.exists_mem_of_ne_nil df.pairs hne
  obtain ⟨v, hv⟩ := Option.isSome_iff_exists.mp (rowVal_isSome_of_mem _ _ _ hy (hWF p hp))
  exact List.ne_nil_of_mem (List.mem_filterMap.mpr ⟨p, hp, hv⟩)

/-- The percentages of `value_counts(normalize=True).mul(100)` over any
non-empty series sum to exactly 100 (rational arithmetic, so in particular
within any positive tolerance). -/
lemma value_counts_norm_pct_sum (vs : List Value) (hne : vs ≠ []) :
    ((value_counts_norm_pct vs).map Prod.snd).sum = 100 := by
  unfold value_counts_norm_pct
  rw [List.map_map]
  have hcomp : (Prod.snd ∘ fun v => (v, ((vs.count v : ℚ) / (vs.length : ℚ)) * 100)) =
      fun v => ((vs.count v : ℚ) / (vs.length : ℚ)) * 100 := rfl
  rw [hcomp]
  have hperm := List.perm_insertionSort (fun a b => Value.le a b = true) vs.dedup
  rw [(hperm.map _).sum_eq]
  have hn : (vs.length : ℚ) ≠ 0 :=
    Nat.cast_ne_zero.mpr (by simpa using (List.length_pos.mpr hne).ne.symm)
  have hrw : (fun v => ((vs.count v : ℚ) / (vs.length : ℚ)) * 100) =
      fun v => (100 / (vs.length : ℚ)) * (vs.count v : ℚ) := by
    funext v
    ring
  rw [hrw, List.sum_map_mul_left]
  have hcast : (vs.dedup.map fun v => ((vs.count v : ℚ))).sum =
      (((vs.dedup.map fun v => vs.count v).sum : ℕ) : ℚ) := by
    rw [Nat.cast_list_sum, List.map_map]
    rfl
  rw [hcast, List.sum_map_count_dedup_eq_length]
  field_simp

/-- The five-row outcome frame of the spec scenario, `y` values
yes, no, no, yes, no. -/
def dfY : DataFrame :=
  ⟨["y"], [(0, [Value.str "yes"]), (1, [Value.str "no"]), (2, [Value.str "no"]),
           (3, [Value.str "yes"]), (4, [Value.str "no"])]⟩

/-- Claim C6: on a well-formed dataset whose schema contains `y`, the
summariser's percentages over the distinct `y` values sum to exactly 100
(hence certainly within 1e-6) whenever the dataset is non-empty; on an empty
dataset it returns the empty mapping instead of failing. -/
theorem summarize_y_percentages (df : DataFrame) (hWF : df.WF) (hy : "y" ∈ df.cols) :
    (df.pairs ≠ [] → ((summarize_y df).map Prod.snd).sum = 100) ∧
    (df.pairs = [] → summarize_y df = []) := by
  constructor
  · intro hne
    exact value_counts_norm_pct_sum _ (colValues_ne_nil df hWF hy hne)
  · intro hnil
    unfold summarize_y colValues
    rw [hnil]
    rfl

theorem summarize_y_percentages_witness :
    (dfY.WF ∧ "y" ∈ dfY.cols ∧ dfY.pairs ≠ []) ∧
    ((summarize_y dfY).map Prod.snd).sum = 100 ∧
    summarize_y dfY = [(Value.str "no", 60), (Value.str "yes", 40)] :=
  ⟨⟨by decide, by decide, by decide⟩,
   (summarize_y_percentages dfY (by decide) (by decide)).1 (by decide),
   by
    have hsort : List.insertionSort (fun a b => Value.le a b = true)
        (List.dedup (colValues dfY "y")) = [Value.str "no", Value.str "yes"] := by decide
    have hc1 : List.count (Value.str "no") (colValues dfY "y") = 3 := by decide
    have hc2 : List.count (Value.str "yes") (colValues dfY "y") = 2 := by decide
    have hlen : (colValues dfY "y").length = 5 := by decide
    unfold summarize_y value_counts_norm_pct
    rw [hsort]
    simp only [List.map_cons, List.map_nil, hc1, hc2, hlen, List.cons.injEq, Prod.mk.injEq]
    norm_num⟩

/-- Binding a successful-or-failed computation with pure is the identity. -/
lemma except_bind_ok {e a : Type} (x : Except e a) : (x.bind fun v => Except.ok v) = x := by
  cases x <;> rfl

/-- The literal eight-column chain of `main` is the general pipeline applied
to the source-ordered selection list. -/
lemma bank_filter_chain_eq_pipeline (bank : DataFrame) (age_range : Int × Int)
    (jobs marital default_sel housing loan contact month day : List Value) :
    bank_filter_chain bank age_range jobs marital default_sel housing loan contact month day =
      pipeline bank age_range.1 age_range.2
        (bankSels jobs marital default_sel housing loan contact month day) := by
  unfold bank_filter_chain pipeline bankSels
  simp only [applyFilters, except_bind_ok]
